import Mathlib

/-!
# Verification of the zenchi-keep notification / offline-cache subsystem

A shallow embedding of the notification scheduling, settings storage,
API validation and service-worker logic of the zenchi-keep repository,
together with theorems settling the specification's claims about it.

Time is modelled at millisecond granularity: an instant is given by a
day index `d`, a minute-of-day `c` (< 1440) and a millisecond remainder
within the minute `r` (< 60000).  Days are a fixed 86400000 ms.
-/

namespace ZenchiKeep

/-! ## Time parsing and next-occurrence computation -/

/-- Model of `String.prototype.split(sep)` on a character list: split at every
occurrence of `sep`, keeping empty segments. -/
def splitChars (sep : Char) : List Char → List (List Char)
  | [] => [[]]
  | c :: rest =>
    let r := splitChars sep rest
    if c = sep then [] :: r
    else
      match r with
      | [] => [[c]]
      | h :: t => (c :: h) :: t

/-- Value of a nonempty all-digit character list (the `Number(...)`
coercion restricted to the decimal-digit strings the schedule uses);
`none` models `NaN`. -/
def natOfDigitsAux (acc : Nat) : List Char → Option Nat
  | [] => some acc
  | ch :: rest =>
    if 48 ≤ ch.toNat ∧ ch.toNat ≤ 57 then
      natOfDigitsAux (acc * 10 + (ch.toNat - 48)) rest
    else none

/-- See `natOfDigitsAux`; the empty list is not a number here. -/
def natOfDigits (cs : List Char) : Option Nat :=
  match cs with
  | [] => none
  | _ :: _ => natOfDigitsAux 0 cs

/-- Parse an `"HH:MM"` schedule entry into minutes since midnight,
mirroring `time.split(':').map(Number)` followed by
`hours * 60 + minutes` in `scheduleNotificationForTime` and
`calculateNextNotificationTime`. -/
def timeToMinutes (time : String) : Nat :=
  match (splitChars ':' time.data).map (fun cs => (natOfDigits cs).getD 0) with
  | h :: m :: _ => h * 60 + m
  | _ => 0

/-- Milliseconds in a day. -/
def msPerDay : Nat := 86400000

/-- Milliseconds in a minute. -/
def msPerMinute : Nat := 60000

/-- The current instant `now` as epoch milliseconds: day index `d`,
minute-of-day `c`, millisecond-within-minute `r`. -/
def nowMs (d c r : Nat) : Nat := d * msPerDay + c * msPerMinute + r

/-- Core of the page-side `scheduleNotificationForTime`
(`src/lib/hooks/useNotifications.ts`): set the entry's clock time on
today's date (`scheduledTime.setHours(hours, minutes, 0, 0)`), and if
`scheduledTime <= now` move it to the next day
(`scheduledTime.setDate(scheduledTime.getDate() + 1)`).  Takes the
already-parsed minute-of-day `e`. -/
def nextOccurrenceMs (d c r e : Nat) : Nat :=
  let scheduledTime := d * msPerDay + e * msPerMinute
  if scheduledTime ≤ nowMs d c r then scheduledTime + msPerDay else scheduledTime

/-- Page-side `scheduleNotificationForTime`: parse the `"HH:MM"` string
and compute the armed occurrence's timestamp. -/
def scheduleNotificationForTime (d c r : Nat) (time : String) : Nat :=
  nextOccurrenceMs d c r (timeToMinutes time)

/-- The set of on-the-minute timestamps strictly after `now` whose
clock time (minute-of-day) is `e`. -/
def occSet (now e : Nat) : Set Nat :=
  {T | now < T ∧ T % msPerDay = e * msPerMinute}

/-- The set of on-the-minute timestamps strictly after `now` whose
clock time equals some entry of `schedule`. -/
def scheduleOccSet (now : Nat) (schedule : List String) : Set Nat :=
  {T | now < T ∧ ∃ t ∈ schedule, T % msPerDay = timeToMinutes t * msPerMinute}

/-- Server/worker-side `calculateNextNotificationTime`
(`src/app/api/notifications/schedule/route.ts` and the background
worker): `null` on an empty schedule; otherwise parse every entry to
minutes since midnight, sort ascending, return the first entry strictly
after the current minute-of-day on today's date, and if none exists the
smallest entry on tomorrow's date. -/
def calculateNextNotificationTime (d c : Nat) (schedule : List String) :
    Option Nat :=
  match schedule with
  | [] => none
  | _ :: _ =>
    let scheduleMinutes :=
      List.insertionSort (· ≤ ·) (schedule.map timeToMinutes)
    match scheduleMinutes.find? (fun x => decide (c < x)) with
    | some x => some (d * msPerDay + x * msPerMinute)
    | none =>
      match scheduleMinutes with
      | [] => none
      | m :: _ => some ((d + 1) * msPerDay + m * msPerMinute)

/-! ## Service worker: notification clicks -/

/-- Leading-match check on character lists (`pat` begins `s`). -/
def charsLeading : List Char → List Char → Bool
  | [], _ => true
  | _ :: _, [] => false
  | a :: as, b :: bs => a = b && charsLeading as bs

/-- Substring check on character lists. -/
def charsHasSub (pat : List Char) : List Char → Bool
  | [] => charsLeading pat []
  | b :: bs => charsLeading pat (b :: bs) || charsHasSub pat bs

/-- JS `s.includes(pat)`. -/
def strIncludes (s pat : String) : Bool := charsHasSub pat.data s.data

/-- An open window client as the worker's `notificationclick` handler
sees it: its URL and whether `'focus' in client` holds (always true for
real window clients). -/
structure SWClient where
  url : String
  canFocus : Bool
deriving DecidableEq

/-- The effect the `notificationclick` handler settles on. -/
inductive ClickAction where
  | focusClient (cl : SWClient)
  | openWindow (url : String)
  | noAction
deriving DecidableEq

/-- Target URL `event.notification.data?.url || '/flashcards'`: missing data or an
empty (falsy) URL falls back to `/flashcards`. -/
def urlToOpen (dataUrl : Option String) : String :=
  match dataUrl with
  | some u => if u = "" then "/flashcards" else u
  | none => "/flashcards"

/-- The `notificationclick` listener of the plain background worker
(`sw.js`): walk the client list, focus the first client with
`client.url.includes(urlToOpen)` and a `focus` method; otherwise call
`clients.openWindow(urlToOpen)` when available. -/
def notificationClickIncludes (dataUrl : Option String)
    (clientList : List SWClient) (openWindowAvail : Bool) : ClickAction :=
  let u := urlToOpen dataUrl
  match clientList.find? (fun cl => strIncludes cl.url u && cl.canFocus) with
  | some cl => .focusClient cl
  | none => if openWindowAvail then .openWindow u else .noAction

/-- The `notificationclick` listener of the TypeScript custom worker
(matches with `client.url === urlToOpen`). -/
def notificationClickEq (dataUrl : Option String)
    (clientList : List SWClient) (openWindowAvail : Bool) : ClickAction :=
  let u := urlToOpen dataUrl
  match clientList.find? (fun cl => cl.url == u && cl.canFocus) with
  | some cl => .focusClient cl
  | none => if openWindowAvail then .openWindow u else .noAction

/-! ## API key validation and the settings endpoint -/

/-- JS truthiness of an optional string (header value or environment
variable): absent (`undefined` / `null`) or empty is falsy. -/
def truthy (o : Option String) : Bool :=
  match o with
  | none => false
  | some s => !(s == "")

/-- Shared body of the two `validateApiKey` functions: the
`Authorization: Bearer <key>` check (`authHeader?.startsWith('Bearer ')`
then `authHeader.substring(7) === process.env.API_KEY`, guarded by the
key's truthiness) followed by the `X-API-Key` header check. -/
def checkApiKeyHeaders (envKey authHeader xApiKey : Option String) : Bool :=
  (match authHeader with
   | some a =>
     charsLeading "Bearer ".data a.data &&
       (truthy envKey && (String.mk (a.data.drop 7) == envKey.getD ""))
   | none => false) ||
  (match xApiKey with
   | some k => truthy (some k) && (truthy envKey && (k == envKey.getD ""))
   | none => false)

/-- Function `validateApiKey` of the settings route
(`/api/settings/notifications`): header checks only — there is no
early `return true` when no key is configured. -/
def validateApiKeySettings (envKey authHeader xApiKey : Option String) :
    Bool :=
  checkApiKeyHeaders envKey authHeader xApiKey

/-- Function `validateApiKey` of the schedule route
(`src/app/api/notifications/schedule/route.ts`): skip validation when
`process.env.API_KEY` is unset (`if (!process.env.API_KEY) return
true`), else the same header checks. -/
def validateApiKeySchedule (envKey authHeader xApiKey : Option String) :
    Bool :=
  if !truthy envKey then true
  else checkApiKeyHeaders envKey authHeader xApiKey

/-- Structure `NotificationSettings` (`src/lib/utils/storage.ts`). -/
structure NotificationSettings where
  enabled : Bool
  schedule : List String
  lastNotificationDate : String
deriving DecidableEq

/-- The default settings object used whenever nothing (valid) is
stored. -/
def defaultNotificationSettings : NotificationSettings :=
  { enabled := false, schedule := [], lastNotificationDate := "" }

/-- Handler of `GET /api/settings/notifications`: status and returned
settings.
`stored` is `getServerNotificationSettings(userId)`. -/
def settingsGetResponse (envKey auth xkey : Option String)
    (stored : Option NotificationSettings) :
    Nat × Option NotificationSettings :=
  if !(validateApiKeySettings envKey auth xkey) then (401, none)
  else
    match stored with
    | none => (200, some defaultNotificationSettings)
    | some s => (200, some s)

/-- Untyped JSON values, for request bodies before validation. -/
inductive JVal where
  | jbool (b : Bool)
  | jstr (s : String)
  | jnum (n : Int)
  | jarr (elems : List JVal)
  | jobj (fields : List (String × JVal))
  | jnull

/-- A parsed POST body's three inspected properties; a missing property
is `jnull` (reads as `undefined`). -/
structure PostBody where
  enabled : JVal
  schedule : JVal
  lastNotificationDate : JVal

/-- Decimal digit character. -/
def isDigitChar (ch : Char) : Bool := 48 ≤ ch.toNat && ch.toNat ≤ 57

/-- Comma-join of `Array.prototype.join(',')`. -/
def joinStrings : List String → String
  | [] => ""
  | [s] => s
  | s :: rest => s ++ "," ++ joinStrings rest

mutual

/-- The JS `ToString` coercion on parsed JSON values, as applied by
`RegExp.prototype.test`: strings pass through, booleans and `null`
print their keyword, numbers print in decimal, plain objects print
`[object Object]`, and arrays comma-join their elements' coercions
(with `null` elements joined as the empty string). -/
def jsToString : JVal → String
  | .jbool b => if b then "true" else "false"
  | .jstr s => s
  | .jnum n => toString n
  | .jobj _ => "[object Object]"
  | .jnull => "null"
  | .jarr elems => joinStrings (jsArrayElemStrings elems)

/-- Element coercions of `Array.prototype.join`: a `null` element joins
as the empty string, every other element via `ToString`. -/
def jsArrayElemStrings : List JVal → List String
  | [] => []
  | v :: rest =>
    (match v with
     | .jnull => ""
     | _ => jsToString v) :: jsArrayElemStrings rest

end

/-- The schedule-entry regex `^([0-1][0-9]|2[0-3]):[0-5][0-9]$`. -/
def timeRegexTest (s : String) : Bool :=
  match s.data with
  | [h1, h2, col, m1, m2] =>
    (((h1 = '0' || h1 = '1') && isDigitChar h2) ||
     (h1 = '2' && (48 ≤ h2.toNat && h2.toNat ≤ 51))) &&
    col = ':' &&
    (48 ≤ m1.toNat && m1.toNat ≤ 53) && isDigitChar m2
  | _ => false

/-- The test `timeRegex.test(time)` applied to a schedule element:
`RegExp.prototype.test` coerces its argument with `ToString`, so a
non-string element passes exactly when its coercion matches (e.g. the
one-element array `["09:00"]` coerces to `"09:00"` and passes). -/
def scheduleElemValid (v : JVal) : Bool :=
  timeRegexTest (jsToString v)

/-- The runtime value the POST handler stores: the body's raw values
(the TypeScript `NotificationSettings` annotation notwithstanding, the
schedule elements are stored verbatim and need not be strings). -/
structure StoredSettings where
  enabled : Bool
  schedule : List JVal
  lastNotificationDate : String

/-- Outcome of `POST /api/settings/notifications`. -/
inductive PostOutcome where
  | unauthorized
  | badRequest
  | ok (settings : StoredSettings)

/-- Handler of `POST /api/settings/notifications`: 401 when `validateApiKey`
fails; 400 when `enabled` is not a boolean, `schedule` is not an array,
`lastNotificationDate` is not a string, or some schedule element fails
the time regex; else 200 with the stored settings (note
`lastNotificationDate: body.lastNotificationDate || ''`). -/
def postNotificationSettings (envKey auth xkey : Option String)
    (body : PostBody) : PostOutcome :=
  if !(validateApiKeySettings envKey auth xkey) then .unauthorized
  else
    match body.enabled, body.schedule, body.lastNotificationDate with
    | .jbool en, .jarr sched, .jstr last =>
      if sched.all scheduleElemValid then
        .ok { enabled := en, schedule := sched
              lastNotificationDate := if last = "" then "" else last }
      else .badRequest
    | _, _, _ => .badRequest

/-- The request carries a matching `Authorization: Bearer` header. -/
def bearerMatches (key : String) (auth : Option String) : Prop :=
  ∃ a, auth = some a ∧ charsLeading "Bearer ".data a.data = true ∧
    String.mk (a.data.drop 7) = key

/-- The request carries a matching `X-API-Key` header. -/
def xkeyMatches (key : String) (xkey : Option String) : Prop :=
  xkey = some key

/-! ## Keyed stores (JS `Map` / `localStorage`) -/

/-- JS `Map.set` / keyed update: replace the value of an existing key in
place, else append the new pair. -/
def storeSet {α : Type} : List (String × α) → String → α → List (String × α)
  | [], k, v => [(k, v)]
  | p :: rest, k, v =>
    if p.1 = k then (k, v) :: rest else p :: storeSet rest k v

/-- JS `Map.get` / `localStorage.getItem`: the value of a key, if any. -/
def storeGet {α : Type} : List (String × α) → String → Option α
  | [], _ => none
  | p :: rest, k => if p.1 = k then some p.2 else storeGet rest k

/-! ## Page-side scheduling state (useNotifications) -/

/-- Messages the page posts to the background worker. -/
inductive WorkerMsg where
  | scheduleNotification (time : String) (delay : Nat)
  | cancelNotifications
  | scheduleNext
deriving DecidableEq

/-- The page context's mutable scheduling state: the module-level
`scheduledTimeouts` map (here each armed timer is recorded as its
schedule entry paired with the occurrence timestamp), the hook's
`error` string, and the stream of messages posted to the worker. -/
structure PageCtx where
  timeouts : List (String × Nat)
  error : Option String
  messagesToWorker : List WorkerMsg
deriving DecidableEq

/-- Hook callback `cancelNotifications`: clear every scheduled timeout,
empty the
map, and post `CANCEL_NOTIFICATIONS` to the worker. -/
def cancelNotificationsFn (st : PageCtx) : PageCtx :=
  { st with
    timeouts := []
    messagesToWorker := st.messagesToWorker ++ [.cancelNotifications] }

/-- Hook callback `scheduleNotifications(settings)` at instant `(d, c, r)`:
`permissionGranted` is the outcome of the permission check,
`fetchResult` the `GET /api/notifications/schedule` response (`none`
models a network failure or a non-ok response, which the hook turns
into a thrown error caught by the surrounding `catch`).  On the happy
path every schedule entry is armed locally and forwarded to the worker
as `SCHEDULE_NOTIFICATION {time, delay}`. -/
def scheduleNotifications (d c r : Nat) (permissionGranted : Bool)
    (settings : NotificationSettings) (fetchResult : Option JVal)
    (st : PageCtx) : PageCtx :=
  let st0 := { st with error := none }
  if !permissionGranted then
    { st0 with
      error :=
        some "Notification permission is required to schedule notifications" }
  else
    let st1 := cancelNotificationsFn st0
    if !settings.enabled || settings.schedule.isEmpty then st1
    else
      match fetchResult with
      | none =>
        { st1 with error := some "Failed to fetch notification schedule" }
      | some _ =>
        { st1 with
          timeouts := settings.schedule.foldl
            (fun acc t =>
              storeSet acc t (scheduleNotificationForTime d c r t)) []
          messagesToWorker := st1.messagesToWorker ++
            settings.schedule.map (fun t =>
              .scheduleNotification t
                (scheduleNotificationForTime d c r t - nowMs d c r)) }

/-! ## Worker-side message handling -/

/-- The background worker's `message` listener acting on its
`scheduledNotifications` map (`sw.js`): `SCHEDULE_NOTIFICATION` stores
a timer keyed by the entry's time string, `CANCEL_NOTIFICATIONS` clears
every stored timer and empties the map. -/
def workerHandleMessage (timers : List (String × Nat)) (msg : WorkerMsg) :
    List (String × Nat) :=
  match msg with
  | .scheduleNotification time delay => storeSet timers time delay
  | .cancelNotifications => []
  | .scheduleNext => timers

/-! ## Settings storage (localStorage) -/

/-- Serialization `JSON.stringify` of a `NotificationSettings` value,
kept as the
parsed JSON tree (for plain acyclic data `JSON.parse ∘ JSON.stringify`
is the identity, so the stored string is represented by its tree). -/
def encodeSettings (s : NotificationSettings) : JVal :=
  .jobj [("enabled", .jbool s.enabled),
         ("schedule", .jarr (s.schedule.map .jstr)),
         ("lastNotificationDate", .jstr s.lastNotificationDate)]

/-- Property access `v.k` on a parsed JSON value: `undefined` (`none`)
when `v` is not an object or lacks the key. -/
def jobjGet (v : JVal) (k : String) : Option JVal :=
  match v with
  | .jobj fields => storeGet fields k
  | _ => none

/-- The structural validation `getNotificationSettings` performs on the
parsed value: `typeof parsed.enabled === 'boolean'`,
`Array.isArray(parsed.schedule)`,
`typeof parsed.lastNotificationDate === 'string'`. -/
def validSettingsShape (v : JVal) : Bool :=
  (match jobjGet v "enabled" with
   | some (.jbool _) => true
   | _ => false) &&
  (match jobjGet v "schedule" with
   | some (.jarr _) => true
   | _ => false) &&
  (match jobjGet v "lastNotificationDate" with
   | some (.jstr _) => true
   | _ => false)

/-- The `localStorage` key for notification settings. -/
def notifSettingsKey : String := "zenchi-keep-notification-settings"

/-- Function `getNotificationSettings` (`src/lib/utils/storage.ts`):
outside a
browser (`typeof window === "undefined"`) return the default object;
otherwise read and parse the stored value, returning it when its shape
validates and the default object otherwise.  The returned JS value is
represented as its JSON tree. -/
def getNotificationSettingsJ (isBrowser : Bool)
    (store : List (String × JVal)) : JVal :=
  if !isBrowser then encodeSettings defaultNotificationSettings
  else
    match storeGet store notifSettingsKey with
    | none => encodeSettings defaultNotificationSettings
    | some v =>
      if validSettingsShape v then v
      else encodeSettings defaultNotificationSettings

/-- Function `setNotificationSettings`: a no-op outside a browser, else
`localStorage.setItem(key, JSON.stringify(settings))`. -/
def setNotificationSettingsJ (isBrowser : Bool)
    (store : List (String × JVal)) (s : NotificationSettings) :
    List (String × JVal) :=
  if !isBrowser then store
  else storeSet store notifSettingsKey (encodeSettings s)

/-! ## Offline cache: network-first strategy -/

/-- An HTTP response as the cache worker sees it. -/
structure HttpResponse where
  status : Nat
  body : String
  contentType : String
deriving DecidableEq

/-- The synthesized 503 fallback for `/api/` routes:
`JSON.stringify({error: 'Offline: No cached data available'})` with a
JSON content type. -/
def offlineApiResponse : HttpResponse :=
  { status := 503
    body := "\x7b\"error\":\"Offline: No cached data available\"\x7d"
    contentType := "application/json" }

/-- The synthesized 503 fallback for page requests. -/
def offlinePageResponse : HttpResponse :=
  { status := 503, body := "Offline", contentType := "text/plain" }

/-- Check `request.url.includes('/api/')`. -/
def isApiRequest (url : String) : Bool := strIncludes url "/api/"

/-- Function `networkFirstStrategy(request, cacheName)`: return the network
response and cache it; on network failure serve the cached response if
one exists; otherwise synthesize the 503 offline placeholder (JSON body
for `/api/` URLs, minimal plain response for pages).  The result pairs
the served response with the request's cache entry after the call. -/
def networkFirstStrategy (url : String) (net : Option HttpResponse)
    (cached : Option HttpResponse) : HttpResponse × Option HttpResponse :=
  match net with
  | some resp => (resp, some resp)
  | none =>
    match cached with
    | some c => (c, some c)
    | none =>
      if isApiRequest url then (offlineApiResponse, none)
      else (offlinePageResponse, none)

/-! ## Bookmarks route: pageSize clamping -/

/-- The per-session counters. -/
structure SessionStats where
  reviewed : Nat
  skipped : Nat
deriving DecidableEq

/-- Structure `ReviewState` (`src/lib/utils/storage.ts`). -/
structure ReviewState where
  reviewedIds : List String
  skippedIds : List String
  lastReviewDate : String
  sessionStats : SessionStats
deriving DecidableEq

/-- Callback `markAsReviewed`: a no-op without a current bookmark;
otherwise
append the bookmark's id to `reviewedIds`, bump `reviewed`, keep
`skippedIds`/`skipped`, and stamp today's date. -/
def markAsReviewed (current : Option String) (today : String)
    (st : ReviewState) : ReviewState :=
  match current with
  | none => st
  | some id =>
    { st with
      reviewedIds := st.reviewedIds ++ [id]
      sessionStats :=
        { reviewed := st.sessionStats.reviewed + 1
          skipped := st.sessionStats.skipped }
      lastReviewDate := today }

/-- Callback `skipBookmark`: the symmetric operation on `skippedIds` and
`skipped`. -/
def skipBookmark (current : Option String) (today : String)
    (st : ReviewState) : ReviewState :=
  match current with
  | none => st
  | some id =>
    { st with
      skippedIds := st.skippedIds ++ [id]
      sessionStats :=
        { reviewed := st.sessionStats.reviewed
          skipped := st.sessionStats.skipped + 1 }
      lastReviewDate := today }

/-! ## Lemmas and claim theorems -/

lemma nextOccurrenceMs_isLeast (d c r e : Nat) (hc : c < 1440)
    (hr : r < 60000) (he : e < 1440) :
    IsLeast (occSet (nowMs d c r) e) (nextOccurrenceMs d c r e) := by
  constructor
  · simp only [occSet, Set.mem_setOf_eq, nextOccurrenceMs, nowMs, msPerDay,
      msPerMinute]
    split <;> omega
  · intro T hT
    obtain ⟨h1, h2⟩ := hT
    simp only [nowMs, msPerDay, msPerMinute] at h1 h2
    have hdiv : 86400000 * (T / 86400000) + T % 86400000 = T :=
      Nat.div_add_mod T 86400000
    simp only [nextOccurrenceMs, nowMs, msPerDay, msPerMinute]
    split <;> omega

lemma nextOccurrenceMs_same_day_iff (d c r e : Nat) (hc : c < 1440)
    (hr : r < 60000) (he : e < 1440) :
    nextOccurrenceMs d c r e < (d + 1) * msPerDay ↔ c < e := by
  simp only [nextOccurrenceMs, nowMs, msPerDay, msPerMinute]
  split <;> omega

lemma find_sorted_least (c : Nat) :
    ∀ (l : List Nat), l.Sorted (· ≤ ·) →
      ∀ x, l.find? (fun y => decide (c < y)) = some x →
        x ∈ l ∧ c < x ∧ ∀ y ∈ l, c < y → x ≤ y := by
  intro l
  induction l with
  | nil => intro _ x hx; simp at hx
  | cons a tl ih =>
    intro hsort x hx
    obtain ⟨hhead, htl⟩ := List.sorted_cons.mp hsort
    by_cases hca : c < a
    · rw [List.find?_cons_of_pos _ (by simpa using hca)] at hx
      obtain rfl : a = x := by simpa using hx
      refine ⟨List.mem_cons_self _ _, hca, ?_⟩
      intro y hy _
      rcases List.mem_cons.mp hy with rfl | hy'
      · exact le_refl _
      · exact hhead y hy'
    · rw [List.find?_cons_of_neg _ (by simpa using hca)] at hx
      obtain ⟨hmem, hcx, hmin⟩ := ih htl x hx
      refine ⟨List.mem_cons_of_mem _ hmem, hcx, ?_⟩
      intro y hy hcy
      rcases List.mem_cons.mp hy with rfl | hy'
      · exact absurd hcy hca
      · exact hmin y hy' hcy

lemma calculateNextNotificationTime_isLeast (d c r : Nat)
    (schedule : List String) (hc : c < 1440) (hr : r < 60000)
    (hne : schedule ≠ [])
    (hall : ∀ t ∈ schedule, timeToMinutes t < 1440) :
    ∃ x, calculateNextNotificationTime d c schedule = some x ∧
      IsLeast (scheduleOccSet (nowMs d c r) schedule) x := by
  obtain ⟨a, rest, rfl⟩ : ∃ a rest, schedule = a :: rest := by
    cases schedule with
    | nil => exact absurd rfl hne
    | cons a rest => exact ⟨a, rest, rfl⟩
  have hsort : (List.insertionSort (· ≤ ·)
      ((a :: rest).map timeToMinutes)).Sorted (· ≤ ·) :=
    List.sorted_insertionSort _ _
  have hperm : List.Perm
      (List.insertionSort (· ≤ ·) ((a :: rest).map timeToMinutes))
      ((a :: rest).map timeToMinutes) := List.perm_insertionSort _ _
  set S := List.insertionSort (· ≤ ·) ((a :: rest).map timeToMinutes) with hS
  have hmemS : ∀ y, y ∈ S ↔ y ∈ (a :: rest).map timeToMinutes :=
    fun y => hperm.mem_iff
  cases hfind : S.find? (fun x => decide (c < x)) with
  | some x =>
    obtain ⟨hxS, hcx, hmin⟩ := find_sorted_least c S hsort x hfind
    obtain ⟨t, ht, rfl⟩ := List.mem_map.mp ((hmemS x).mp hxS)
    have hx1440 : timeToMinutes t < 1440 := hall t ht
    refine ⟨d * msPerDay + timeToMinutes t * msPerMinute, ?_, ?_, ?_⟩
    · simp only [calculateNextNotificationTime, ← hS, hfind]
    · refine ⟨?_, t, ht, ?_⟩ <;>
        simp only [nowMs, msPerDay, msPerMinute] <;> omega
    · rintro T ⟨hT1, u, hu, hTmod⟩
      have heL : timeToMinutes u ∈ (a :: rest).map timeToMinutes :=
        List.mem_map_of_mem _ hu
      have heS : timeToMinutes u ∈ S := (hmemS _).mpr heL
      have he1440 : timeToMinutes u < 1440 := hall u hu
      have hdiv : 86400000 * (T / 86400000) + T % 86400000 = T :=
        Nat.div_add_mod T 86400000
      simp only [nowMs, msPerDay, msPerMinute] at hT1 hTmod ⊢
      by_cases hce : c < timeToMinutes u
      · have hxe := hmin _ heS hce
        omega
      · omega
  | none =>
    have hnone : ∀ y ∈ S, ¬ (c < y) := by
      intro y hy
      have := List.find?_eq_none.mp hfind y hy
      simpa using this
    have hSne : S ≠ [] := by
      intro h
      have : timeToMinutes a ∈ S :=
        (hmemS _).mpr (List.mem_map_of_mem _ (List.mem_cons_self _ _))
      simp [h] at this
    obtain ⟨m, tl, hmtl⟩ : ∃ m tl, S = m :: tl := by
      cases hS' : S with
      | nil => exact absurd hS' hSne
      | cons m tl => exact ⟨m, tl, rfl⟩
    have hheadmin : ∀ y ∈ S, m ≤ y := by
      rw [hmtl] at hsort ⊢
      obtain ⟨hhead, _⟩ := List.sorted_cons.mp hsort
      intro y hy
      rcases List.mem_cons.mp hy with rfl | hy'
      · exact le_refl _
      · exact hhead y hy'
    obtain ⟨t, ht, htm⟩ := List.mem_map.mp
      ((hmemS m).mp (hmtl ▸ List.mem_cons_self _ _))
    have hm1440 : m < 1440 := htm ▸ hall t ht
    have hmc : ¬ (c < m) := hnone m (hmtl ▸ List.mem_cons_self _ _)
    refine ⟨(d + 1) * msPerDay + m * msPerMinute, ?_, ?_, ?_⟩
    · have hfind' : List.find? (fun x => decide (c < x)) (m :: tl) = none := by
        rw [← hmtl]; exact hfind
      simp only [calculateNextNotificationTime, ← hS, hmtl, hfind']
    · refine ⟨?_, t, ht, ?_⟩ <;>
        simp only [nowMs, msPerDay, msPerMinute, htm.symm] <;> omega
    · rintro T ⟨hT1, u, hu, hTmod⟩
      have heS : timeToMinutes u ∈ S :=
        (hmemS _).mpr (List.mem_map_of_mem _ hu)
      have he1440 : timeToMinutes u < 1440 := hall u hu
      have hec : ¬ (c < timeToMinutes u) := hnone _ heS
      have hme : m ≤ timeToMinutes u := hheadmin _ heS
      have hdiv : 86400000 * (T / 86400000) + T % 86400000 = T :=
        Nat.div_add_mod T 86400000
      simp only [nowMs, msPerDay, msPerMinute] at hT1 hTmod ⊢
      omega

/-- C1: for every schedule entry "HH:MM" and every current instant, the
page-side `scheduleNotificationForTime` occurrence is the smallest
timestamp strictly greater than now whose clock time equals the entry
(same calendar day exactly when the entry's minute-of-day strictly
exceeds the current minute-of-day); the server/worker-side
`calculateNextNotificationTime` over a whole nonempty schedule returns
the smallest timestamp strictly greater than now whose clock time
equals some entry; and for now = 14:30 and schedule
["09:00","14:00","20:00"] the occurrences are today 20:00, tomorrow
09:00, tomorrow 14:00, with the server-side next time today 20:00. -/
theorem claim_C1_next_occurrence :
    (∀ d c r time, c < 1440 → r < 60000 → timeToMinutes time < 1440 →
        IsLeast (occSet (nowMs d c r) (timeToMinutes time))
          (scheduleNotificationForTime d c r time) ∧
        (scheduleNotificationForTime d c r time < (d + 1) * msPerDay ↔
          c < timeToMinutes time)) ∧
    (∀ d c r schedule, c < 1440 → r < 60000 → schedule ≠ [] →
        (∀ t ∈ schedule, timeToMinutes t < 1440) →
        ∃ x, calculateNextNotificationTime d c schedule = some x ∧
          IsLeast (scheduleOccSet (nowMs d c r) schedule) x) ∧
    (scheduleNotificationForTime 0 870 0 "20:00" = 1200 * 60000 ∧
     scheduleNotificationForTime 0 870 0 "09:00" = 86400000 + 540 * 60000 ∧
     scheduleNotificationForTime 0 870 0 "14:00" = 86400000 + 840 * 60000 ∧
     calculateNextNotificationTime 0 870 ["09:00", "14:00", "20:00"] =
       some (1200 * 60000)) := by
  refine ⟨?_, ?_, by decide, by decide, by decide, by decide⟩
  · intro d c r time hc hr he
    exact ⟨nextOccurrenceMs_isLeast d c r _ hc hr he,
      nextOccurrenceMs_same_day_iff d c r _ hc hr he⟩
  · intro d c r schedule hc hr hne hall
    exact calculateNextNotificationTime_isLeast d c r schedule hc hr hne hall

/-- Witness for C1: the scheduling property instantiated at
now = day 0, 14:30:00.000 and the entry "20:00", and at the concrete
three-entry schedule. -/
theorem claim_C1_witness :
    IsLeast (occSet (nowMs 0 870 0) (timeToMinutes "20:00"))
      (scheduleNotificationForTime 0 870 0 "20:00") ∧
    ∃ x, calculateNextNotificationTime 0 870 ["09:00", "14:00", "20:00"] =
        some x ∧
      IsLeast (scheduleOccSet (nowMs 0 870 0) ["09:00", "14:00", "20:00"]) x :=
  ⟨(claim_C1_next_occurrence.1 0 870 0 "20:00" (by decide) (by decide)
      (by decide)).1,
   claim_C1_next_occurrence.2.1 0 870 0 ["09:00", "14:00", "20:00"]
     (by decide) (by decide) (by decide) (by decide)⟩

lemma clickFind_some (q : SWClient → Bool) (l : List SWClient)
    (hfocus : ∀ cl ∈ l, cl.canFocus = true)
    (hex : ∃ cl ∈ l, q cl = true) :
    ∃ cl, l.find? (fun c => q c && c.canFocus) = some cl ∧ cl ∈ l ∧
      q cl = true := by
  have hsome : (l.find? (fun c => q c && c.canFocus)).isSome := by
    rw [List.find?_isSome]
    obtain ⟨cl, hmem, hq⟩ := hex
    exact ⟨cl, hmem, by simp [hq, hfocus cl hmem]⟩
  obtain ⟨cl, hcl⟩ := Option.isSome_iff_exists.mp hsome
  have hmem := List.mem_of_find?_eq_some hcl
  have hq := List.find?_some hcl
  exact ⟨cl, hcl, hmem, (Bool.and_eq_true _ _ |>.mp hq).1⟩

lemma clickFind_none (q : SWClient → Bool) (l : List SWClient)
    (hfocus : ∀ cl ∈ l, cl.canFocus = true)
    (hnone : l.find? (fun c => q c && c.canFocus) = none) :
    ∀ cl ∈ l, q cl = false := by
  intro cl hmem
  have := List.find?_eq_none.mp hnone cl hmem
  simpa [hfocus cl hmem] using this

/-- C2: for every notification-click event, if the open window-client
list contains a client showing the target URL (the bookmark URL carried
in the notification data, `/flashcards` when absent) — containment per
the worker's own match (`includes` in sw.js, `===` in the TypeScript
worker) — then a showing client is focused; a new window is opened with
the target URL only when no client shows it. -/
theorem claim_C2_notification_click :
    ∀ (dataUrl : Option String) (clientList : List SWClient) (avail : Bool),
      (∀ cl ∈ clientList, cl.canFocus = true) →
      (((∃ cl ∈ clientList, strIncludes cl.url (urlToOpen dataUrl) = true) →
        ∃ cl ∈ clientList, strIncludes cl.url (urlToOpen dataUrl) = true ∧
          notificationClickIncludes dataUrl clientList avail =
            .focusClient cl) ∧
      (∀ v, notificationClickIncludes dataUrl clientList avail =
          .openWindow v →
        v = urlToOpen dataUrl ∧
          ∀ cl ∈ clientList,
            strIncludes cl.url (urlToOpen dataUrl) = false) ∧
      ((∃ cl ∈ clientList, cl.url = urlToOpen dataUrl) →
        ∃ cl ∈ clientList, cl.url = urlToOpen dataUrl ∧
          notificationClickEq dataUrl clientList avail = .focusClient cl) ∧
      (∀ v, notificationClickEq dataUrl clientList avail = .openWindow v →
        v = urlToOpen dataUrl ∧
          ∀ cl ∈ clientList, cl.url ≠ urlToOpen dataUrl)) := by
  intro dataUrl clientList avail hfocus
  refine ⟨?_, ?_, ?_, ?_⟩
  · intro hex
    obtain ⟨cl, hfind, hmem, hq⟩ :=
      clickFind_some (fun c => strIncludes c.url (urlToOpen dataUrl))
        clientList hfocus hex
    exact ⟨cl, hmem, hq, by simp [notificationClickIncludes, hfind]⟩
  · intro v hv
    unfold notificationClickIncludes at hv
    dsimp only at hv
    cases hfind : clientList.find?
        (fun cl => strIncludes cl.url (urlToOpen dataUrl) && cl.canFocus) with
    | some cl => simp [hfind] at hv
    | none =>
      rw [hfind] at hv
      have hval : v = urlToOpen dataUrl := by
        by_cases ha : avail = true <;> simp [ha] at hv <;> tauto
      exact ⟨hval, clickFind_none _ clientList hfocus hfind⟩
  · intro hex
    obtain ⟨cl, hfind, hmem, hq⟩ :=
      clickFind_some (fun c => c.url == urlToOpen dataUrl)
        clientList hfocus (by
          obtain ⟨cl, hmem, hq⟩ := hex
          exact ⟨cl, hmem, by simp [hq]⟩)
    exact ⟨cl, hmem, by simpa using hq, by simp [notificationClickEq, hfind]⟩
  · intro v hv
    unfold notificationClickEq at hv
    dsimp only at hv
    cases hfind : clientList.find?
        (fun cl => (cl.url == urlToOpen dataUrl) && cl.canFocus) with
    | some cl => simp [hfind] at hv
    | none =>
      rw [hfind] at hv
      have hval : v = urlToOpen dataUrl := by
        by_cases ha : avail = true <;> simp [ha] at hv <;> tauto
      refine ⟨hval, ?_⟩
      intro cl hmem
      have := clickFind_none (fun c => c.url == urlToOpen dataUrl)
        clientList hfocus hfind cl hmem
      simpa using this

/-- Witness for C2: a client list that already shows `/flashcards`
leads both listeners to focus that client rather than open a window. -/
theorem claim_C2_witness :
    (∃ cl ∈ [SWClient.mk "/flashcards" true],
        strIncludes cl.url (urlToOpen none) = true ∧
        notificationClickIncludes none [SWClient.mk "/flashcards" true] true =
          .focusClient cl) ∧
    (∃ cl ∈ [SWClient.mk "/flashcards" true],
        cl.url = urlToOpen none ∧
        notificationClickEq none [SWClient.mk "/flashcards" true] true =
          .focusClient cl) := by
  have h := claim_C2_notification_click none [SWClient.mk "/flashcards" true]
    true (by decide)
  exact ⟨h.1 (by decide), h.2.2.1 (by decide)⟩

lemma validateApiKeySettings_iff (key : String) (auth xkey : Option String)
    (hk : key ≠ "") :
    validateApiKeySettings (some key) auth xkey = true ↔
      bearerMatches key auth ∨ xkeyMatches key xkey := by
  have htk : truthy (some key) = true := by
    simp [truthy, hk]
  unfold validateApiKeySettings checkApiKeyHeaders bearerMatches xkeyMatches
  cases auth <;> cases xkey <;> simp [htk, truthy] <;> aesop

lemma settingsGet_401_iff (e a x : Option String)
    (st : Option NotificationSettings) :
    (settingsGetResponse e a x st).1 = 401 ↔
      validateApiKeySettings e a x = false := by
  unfold settingsGetResponse
  by_cases hv : validateApiKeySettings e a x = true
  · cases st <;> simp [hv]
  · rw [Bool.not_eq_true] at hv
    simp [hv]

lemma post_unauthorized_iff (e a x : Option String) (b : PostBody) :
    postNotificationSettings e a x b = .unauthorized ↔
      validateApiKeySettings e a x = false := by
  unfold postNotificationSettings
  by_cases hv : validateApiKeySettings e a x = true
  · obtain ⟨be, bs, bl⟩ := b
    cases be <;> cases bs <;> cases bl <;> simp [hv] <;> try (split <;> simp)
  · rw [Bool.not_eq_true] at hv
    simp [hv]

/-- C3 counterexample: with no API key configured server-side and no
auth headers, the settings endpoint rejects the request with 401, even
though the schedule endpoint's rule (which the claim says applies)
would accept it. -/
theorem claim_C3_counterexample :
    (settingsGetResponse none none none none).1 = 401 ∧
    postNotificationSettings none none none
        ⟨.jbool true, .jarr [], .jstr ""⟩ = .unauthorized ∧
    validateApiKeySchedule none none none = true ∧
    validateApiKeySettings none none none = false :=
  ⟨rfl, rfl, rfl, rfl⟩

/-- C3 (amended): when no API key is configured server-side (unset or
empty, hence falsy), every GET/POST to the settings endpoint is
rejected with 401 — its `validateApiKey` lacks the schedule route's
no-key bypass; when a nonempty key is configured, the request is
rejected with 401 exactly when it carries neither a matching Bearer
Authorization header nor a matching X-API-Key header, and in that case
the settings and schedule validators agree. -/
theorem claim_C3_amended_auth :
    (∀ envKey auth xkey stored body, truthy envKey = false →
        (settingsGetResponse envKey auth xkey stored).1 = 401 ∧
        postNotificationSettings envKey auth xkey body = .unauthorized ∧
        validateApiKeySchedule envKey auth xkey = true) ∧
    (∀ key auth xkey stored body, key ≠ "" →
        validateApiKeySettings (some key) auth xkey =
          validateApiKeySchedule (some key) auth xkey ∧
        ((settingsGetResponse (some key) auth xkey stored).1 = 401 ↔
          ¬(bearerMatches key auth ∨ xkeyMatches key xkey)) ∧
        (postNotificationSettings (some key) auth xkey body = .unauthorized ↔
          ¬(bearerMatches key auth ∨ xkeyMatches key xkey))) := by
  constructor
  · intro envKey auth xkey stored body hfalsy
    have hval : validateApiKeySettings envKey auth xkey = false := by
      unfold validateApiKeySettings checkApiKeyHeaders
      cases auth <;> cases xkey <;> simp [hfalsy]
    refine ⟨(settingsGet_401_iff _ _ _ _).mpr hval,
      (post_unauthorized_iff _ _ _ _).mpr hval, ?_⟩
    unfold validateApiKeySchedule
    simp [hfalsy]
  · intro key auth xkey stored body hk
    have htk : truthy (some key) = true := by simp [truthy, hk]
    refine ⟨?_, ?_, ?_⟩
    · unfold validateApiKeySettings validateApiKeySchedule
      simp [htk]
    · rw [settingsGet_401_iff, ← Bool.not_eq_true,
        validateApiKeySettings_iff key auth xkey hk]
    · rw [post_unauthorized_iff, ← Bool.not_eq_true,
        validateApiKeySettings_iff key auth xkey hk]

/-- Witness for C3 (amended): concrete instances — no configured key
plus empty headers gives 401; configured key "secret" with a matching
bearer header gives the 401-iff equivalence. -/
theorem claim_C3_witness :
    ((settingsGetResponse none none none none).1 = 401 ∧
      postNotificationSettings none none none
          ⟨.jbool true, .jarr [], .jstr ""⟩ = .unauthorized ∧
      validateApiKeySchedule none none none = true) ∧
    ((settingsGetResponse (some "secret") (some "Bearer secret") none
        none).1 = 401 ↔
      ¬(bearerMatches "secret" (some "Bearer secret") ∨
        xkeyMatches "secret" none)) :=
  ⟨claim_C3_amended_auth.1 none none none none
      ⟨.jbool true, .jarr [], .jstr ""⟩ (by decide),
   (claim_C3_amended_auth.2 "secret" (some "Bearer secret") none none
      ⟨.jbool true, .jarr [], .jstr ""⟩ (by decide)).2.1⟩

/-- C4 counterexample: `RegExp.prototype.test` coerces its argument
with `ToString`, so the authorized body
`{enabled:true, schedule:[["09:00"]], lastNotificationDate:""}` — whose
schedule is an array but not an array of strings — is accepted with 200
and stored verbatim (`["09:00"]` coerces to "09:00"), where the claim's
"400 exactly when schedule is not an array of strings each matching"
demands 400. -/
theorem claim_C4_counterexample :
    postNotificationSettings (some "secret") (some "Bearer secret") none
        ⟨.jbool true, .jarr [.jarr [.jstr "09:00"]], .jstr ""⟩ =
      .ok ⟨true, [.jarr [.jstr "09:00"]], ""⟩ ∧
    jsToString (.jarr [.jstr "09:00"]) = "09:00" ∧
    (∀ str, JVal.jarr [.jstr "09:00"] ≠ .jstr str) ∧
    validateApiKeySettings (some "secret") (some "Bearer secret") none =
      true :=
  ⟨rfl, rfl, fun _ h => JVal.noConfusion h, rfl⟩

/-- C4 (amended): an authorized POST is rejected with 400 exactly when
`enabled` is not a boolean, `schedule` is not an array,
`lastNotificationDate` is not a string, or some schedule element's
`ToString` coercion fails `^([0-1][0-9]|2[0-3]):[0-5][0-9]$` (the test
coerces non-strings, so a string element must match itself while a
non-string element whose coercion matches is accepted); otherwise it is
accepted with 200 and the schedule stored verbatim — no deduplication —
so `["9:00"]` yields 400 and `["09:00","09:00"]` is stored with both
entries. -/
theorem claim_C4_amended_post :
    (∀ envKey auth xkey (body : PostBody),
        validateApiKeySettings envKey auth xkey = true →
        (postNotificationSettings envKey auth xkey body = .badRequest ↔
          ¬ ∃ en l last, body.enabled = .jbool en ∧
              body.schedule = .jarr l ∧
              body.lastNotificationDate = .jstr last ∧
              ∀ e ∈ l, timeRegexTest (jsToString e) = true)) ∧
    (∀ envKey auth xkey en (l : List JVal) last,
        validateApiKeySettings envKey auth xkey = true →
        (∀ e ∈ l, timeRegexTest (jsToString e) = true) →
        postNotificationSettings envKey auth xkey
            ⟨.jbool en, .jarr l, .jstr last⟩ = .ok ⟨en, l, last⟩) ∧
    (timeRegexTest "9:00" = false ∧
     postNotificationSettings (some "secret") (some "Bearer secret") none
         ⟨.jbool true, .jarr [.jstr "9:00"], .jstr ""⟩ = .badRequest) ∧
    (postNotificationSettings (some "secret") (some "Bearer secret") none
         ⟨.jbool true, .jarr [.jstr "09:00", .jstr "09:00"], .jstr ""⟩ =
       .ok ⟨true, [.jstr "09:00", .jstr "09:00"], ""⟩) := by
  refine ⟨?_, ?_, ⟨by decide, rfl⟩, rfl⟩
  · intro envKey auth xkey body hval
    obtain ⟨be, bs, bl⟩ := body
    unfold postNotificationSettings
    cases be <;> cases bs <;> cases bl <;> simp [hval, scheduleElemValid]
  · intro envKey auth xkey en l last hval hl
    have hall : l.all scheduleElemValid = true := by
      rw [List.all_eq_true]
      intro e he
      simpa [scheduleElemValid] using hl e he
    unfold postNotificationSettings
    simp [hval, hall]
    intro h
    exact h.symm

/-- Witness for C4 (amended): the validation equivalence and acceptance
applied to concrete authorized requests. -/
theorem claim_C4_witness :
    (postNotificationSettings (some "secret") (some "Bearer secret") none
        ⟨.jbool true, .jarr [.jstr "9:00"], .jstr ""⟩ = .badRequest ↔
      ¬ ∃ en l last, JVal.jbool true = .jbool en ∧
          JVal.jarr [.jstr "9:00"] = .jarr l ∧
          JVal.jstr "" = .jstr last ∧
          ∀ e ∈ l, timeRegexTest (jsToString e) = true) ∧
    postNotificationSettings (some "secret") (some "Bearer secret") none
        ⟨.jbool true, .jarr [.jstr "09:00", .jstr "09:00"], .jstr ""⟩ =
      .ok ⟨true, [.jstr "09:00", .jstr "09:00"], ""⟩ :=
  ⟨claim_C4_amended_post.1 (some "secret") (some "Bearer secret") none
      ⟨.jbool true, .jarr [.jstr "9:00"], .jstr ""⟩ (by decide),
   claim_C4_amended_post.2.1 (some "secret") (some "Bearer secret") none
      true [.jstr "09:00", .jstr "09:00"] "" (by decide) (by decide)⟩

lemma storeGet_storeSet {α : Type} (m : List (String × α)) (k : String)
    (v : α) : storeGet (storeSet m k v) k = some v := by
  induction m with
  | nil => simp [storeSet, storeGet]
  | cons p rest ih =>
    by_cases hp : p.1 = k
    · simp [storeSet, storeGet, hp]
    · simp [storeSet, storeGet, hp, ih]

lemma schedule_isEmpty_false (l : List String) (h : l ≠ []) :
    l.isEmpty = false := by
  cases l with
  | nil => exact absurd rfl h
  | cons a tl => rfl

/-- C5: with permission granted, an enabled non-empty schedule, and a
failing fetch of the preview bookmark, `scheduleNotifications` aborts:
the error string is surfaced, zero local timers are armed, and no
`SCHEDULE_NOTIFICATION` message is sent to the worker (only the
initial cancel). -/
theorem claim_C5_fetch_failure_aborts :
    ∀ (d c r : Nat) (settings : NotificationSettings) (st : PageCtx),
      settings.enabled = true → settings.schedule ≠ [] →
      (scheduleNotifications d c r true settings none st).error =
          some "Failed to fetch notification schedule" ∧
      (scheduleNotifications d c r true settings none st).timeouts = [] ∧
      (scheduleNotifications d c r true settings none st).messagesToWorker =
        st.messagesToWorker ++ [.cancelNotifications] := by
  intro d c r settings st hen hne
  unfold scheduleNotifications cancelNotificationsFn
  simp [hen, schedule_isEmpty_false _ hne]

/-- Witness for C5: a concrete enabled one-entry schedule with a failed
fetch leaves no armed timers and surfaces the error. -/
theorem claim_C5_witness :
    (scheduleNotifications 0 870 0 true
        ⟨true, ["09:00"], ""⟩ none ⟨[], none, []⟩).error =
        some "Failed to fetch notification schedule" ∧
    (scheduleNotifications 0 870 0 true
        ⟨true, ["09:00"], ""⟩ none ⟨[], none, []⟩).timeouts = [] :=
  ⟨(claim_C5_fetch_failure_aborts 0 870 0 ⟨true, ["09:00"], ""⟩
      ⟨[], none, []⟩ (by decide) (by decide)).1,
   (claim_C5_fetch_failure_aborts 0 870 0 ⟨true, ["09:00"], ""⟩
      ⟨[], none, []⟩ (by decide) (by decide)).2.1⟩

lemma validSettingsShape_encode (s : NotificationSettings) :
    validSettingsShape (encodeSettings s) = true := by
  simp [validSettingsShape, encodeSettings, jobjGet, storeGet]

/-- C6: in a browser context a `setNotificationSettings` followed by
`getNotificationSettings` returns exactly the written value (its JSON
tree, with the encoding injective); outside a browser the write is a
no-op and the read returns the default object
`{enabled:false, schedule:[], lastNotificationDate:""}` regardless of
the store's contents. -/
theorem claim_C6_storage_roundtrip :
    (∀ (s : NotificationSettings) (store : List (String × JVal)),
        getNotificationSettingsJ true (setNotificationSettingsJ true store s) =
          encodeSettings s) ∧
    (∀ (s : NotificationSettings) (store : List (String × JVal)),
        setNotificationSettingsJ false store s = store) ∧
    (∀ store, getNotificationSettingsJ false store =
        encodeSettings defaultNotificationSettings) ∧
    Function.Injective encodeSettings := by
  refine ⟨?_, ?_, ?_, ?_⟩
  · intro s store
    unfold getNotificationSettingsJ setNotificationSettingsJ
    simp [storeGet_storeSet, validSettingsShape_encode]
  · intro s store
    simp [setNotificationSettingsJ]
  · intro store
    simp [getNotificationSettingsJ]
  · intro s1 s2 h
    simp only [encodeSettings, JVal.jobj.injEq, List.cons.injEq,
      Prod.mk.injEq, JVal.jbool.injEq, JVal.jarr.injEq, JVal.jstr.injEq,
      true_and, and_true] at h
    obtain ⟨h1, h2, h3⟩ := h
    have hinj : Function.Injective JVal.jstr := by
      intro a b hab
      simpa using hab
    have hsched : s1.schedule = s2.schedule :=
      List.map_injective_iff.mpr hinj h2
    obtain ⟨e1, l1, d1⟩ := s1
    obtain ⟨e2, l2, d2⟩ := s2
    simp_all

/-- Witness for C6: a concrete settings value written to an empty store
in a browser context reads back as itself, and the no-op/default cases
at a concrete store. -/
theorem claim_C6_witness :
    getNotificationSettingsJ true
        (setNotificationSettingsJ true []
          ⟨true, ["09:00", "20:00"], "2024-01-01"⟩) =
      encodeSettings ⟨true, ["09:00", "20:00"], "2024-01-01"⟩ ∧
    setNotificationSettingsJ false []
        ⟨true, ["09:00", "20:00"], "2024-01-01"⟩ = [] ∧
    getNotificationSettingsJ false
        [(notifSettingsKey,
          encodeSettings ⟨true, ["09:00", "20:00"], "2024-01-01"⟩)] =
      encodeSettings defaultNotificationSettings :=
  ⟨claim_C6_storage_roundtrip.1 ⟨true, ["09:00", "20:00"], "2024-01-01"⟩ [],
   claim_C6_storage_roundtrip.2.1 ⟨true, ["09:00", "20:00"], "2024-01-01"⟩ [],
   claim_C6_storage_roundtrip.2.2.1
     [(notifSettingsKey,
       encodeSettings ⟨true, ["09:00", "20:00"], "2024-01-01"⟩)]⟩

/-- C7: `cancelNotifications` leaves the page's timer map empty (after
one call and after two consecutive calls) and sets no error; the
worker's `CANCEL_NOTIFICATIONS` handler empties its timer map no matter
which `SCHEDULE_NOTIFICATION` messages had armed timers, and is equally
idempotent. -/
theorem claim_C7_cancel_idempotent :
    (∀ st : PageCtx,
        (cancelNotificationsFn st).timeouts = [] ∧
        (cancelNotificationsFn st).error = st.error ∧
        (cancelNotificationsFn (cancelNotificationsFn st)).timeouts = []) ∧
    (∀ (timers : List (String × Nat)) (msgs : List WorkerMsg),
        workerHandleMessage (List.foldl workerHandleMessage timers msgs)
          .cancelNotifications = [] ∧
        workerHandleMessage
          (workerHandleMessage timers .cancelNotifications)
          .cancelNotifications = []) :=
  ⟨fun _ => ⟨rfl, rfl, rfl⟩, fun _ _ => ⟨rfl, rfl⟩⟩

/-- C8: under the network-first strategy a successful network response
is served and cached; on network failure the cached response is served
when present; with no cache entry a synthesized 503 is served — the
JSON error body for `/api/` URLs and the minimal plain response for
page requests — and a response cached by a successful fetch is the one
served by a later offline fetch. -/
theorem claim_C8_network_first :
    ∀ (url : String) (net cached : Option HttpResponse),
      (∀ resp, net = some resp →
        networkFirstStrategy url net cached = (resp, some resp)) ∧
      (net = none → ∀ c, cached = some c →
        (networkFirstStrategy url net cached).1 = c) ∧
      (net = none → cached = none →
        (networkFirstStrategy url net cached).1.status = 503 ∧
        (isApiRequest url = true →
          (networkFirstStrategy url net cached).1 = offlineApiResponse) ∧
        (isApiRequest url = false →
          (networkFirstStrategy url net cached).1 = offlinePageResponse)) ∧
      (∀ resp, net = some resp →
        (networkFirstStrategy url none
            (networkFirstStrategy url net cached).2).1 = resp) := by
  intro url net cached
  refine ⟨?_, ?_, ?_, ?_⟩
  · rintro resp rfl
    rfl
  · rintro rfl c rfl
    rfl
  · rintro rfl rfl
    unfold networkFirstStrategy
    by_cases hapi : isApiRequest url = true
    · simp [hapi, offlineApiResponse]
    · rw [Bool.not_eq_true] at hapi
      simp [hapi, offlinePageResponse]
  · rintro resp rfl
    rfl

/-- Witness for C8: concrete offline behavior on an `/api/` URL with an
empty cache, and the success case. -/
theorem claim_C8_witness :
    ((networkFirstStrategy "https://x.test/api/bookmarks" none none).1 =
        offlineApiResponse) ∧
    (networkFirstStrategy "https://x.test/api/bookmarks"
        (some ⟨200, "ok", "application/json"⟩) none =
      (⟨200, "ok", "application/json"⟩,
        some ⟨200, "ok", "application/json"⟩)) :=
  ⟨((claim_C8_network_first "https://x.test/api/bookmarks" none none).2.2.1
      rfl rfl).2.1 (by decide),
   (claim_C8_network_first "https://x.test/api/bookmarks"
      (some ⟨200, "ok", "application/json"⟩) none).1
     ⟨200, "ok", "application/json"⟩ rfl⟩

/-- C10: with a current bookmark, `markAsReviewed` appends exactly its
id to `reviewedIds` and bumps `reviewed` by one, leaving `skippedIds`
and `skipped` untouched; `skipBookmark` does the symmetric update; both
stamp today's date; both are no-ops without a current bookmark. -/
theorem claim_C10_review_frame :
    ∀ (id today : String) (st : ReviewState),
      (markAsReviewed (some id) today st).reviewedIds =
          st.reviewedIds ++ [id] ∧
      (markAsReviewed (some id) today st).sessionStats.reviewed =
          st.sessionStats.reviewed + 1 ∧
      (markAsReviewed (some id) today st).skippedIds = st.skippedIds ∧
      (markAsReviewed (some id) today st).sessionStats.skipped =
          st.sessionStats.skipped ∧
      (markAsReviewed (some id) today st).lastReviewDate = today ∧
      (skipBookmark (some id) today st).skippedIds =
          st.skippedIds ++ [id] ∧
      (skipBookmark (some id) today st).sessionStats.skipped =
          st.sessionStats.skipped + 1 ∧
      (skipBookmark (some id) today st).reviewedIds = st.reviewedIds ∧
      (skipBookmark (some id) today st).sessionStats.reviewed =
          st.sessionStats.reviewed ∧
      (skipBookmark (some id) today st).lastReviewDate = today ∧
      markAsReviewed none today st = st ∧
      skipBookmark none today st = st :=
  fun _ _ _ =>
    ⟨rfl, rfl, rfl, rfl, rfl, rfl, rfl, rfl, rfl, rfl, rfl, rfl⟩

end ZenchiKeep
